import Mathlib

/-!
Verification of the time-series BucketUnpacker subsystem.

The repository fragment contains the BucketUnpacker unit-test suite
(`bucket_unpacker_test.cpp`); the production implementation
(`bucket_unpacker.h/.cpp`) is not part of the fragment.  The definitions
below therefore model the unpacker from the specification, with the
behavior pinned to the expected values asserted by the test suite wherever
the two speak to the same point (the tests are the authority on observable
behavior: expected records, error codes, iteration order).

Data model: a BSON-like value universe sufficient for the fixtures used by
the tests (32-bit ints, dates, null, the `undefined` sentinel, and flat
objects with int fields); buckets with `control`/`meta`/`data` regions;
version-1 columns as row-key-string → value association lists and
version-2 (compressed) columns as their decoded positional form (the
columnar decoder is an external collaborator, so only its output contract
is modelled).
-/

namespace BucketUnpacking

/-- BSON-like values as they occur in the bucket fixtures: int32, date,
null, the `undefined` sentinel and flat objects with int32 fields. -/
inductive BsonValue where
  | int (n : Int)
  | date (n : Int)
  | null
  | undefined
  | obj (pairs : List (String × Int))
deriving DecidableEq, Repr

/-- Projection mode: allow-list vs deny-list. -/
inductive Behavior where
  | kInclude
  | kExclude
deriving DecidableEq, Repr

/-- The projection configuration: time field name, optional meta field
name, and the include/exclude field-name set (a `std::set<std::string>`
in the source; modelled as a list queried and erased with set
semantics). -/
structure BucketSpec where
  timeField : String
  metaField : Option String
  fieldSet : List String
deriving DecidableEq, Repr

/-- Modelled from the spec: `eraseMetaFromFieldSetAndDetermineIncludeMeta`
of the missing `bucket_unpacker.cpp`.  Removes the meta field name from
`spec.fieldSet` (the mutation is rendered by returning the updated spec)
and returns whether meta is included: iff behavior is `kInclude` and the
name was in the set, or behavior is `kExclude` and it was not.  With no
meta field name configured it returns `false` and leaves the spec
untouched. -/
def eraseMetaFromFieldSetAndDetermineIncludeMeta (behavior : Behavior)
    (spec : BucketSpec) : Bool × BucketSpec :=
  match spec.metaField with
  | none => (false, spec)
  | some m =>
    ((behavior == Behavior.kInclude) == decide (m ∈ spec.fieldSet),
     { spec with fieldSet := spec.fieldSet.filter (fun f => decide (f ≠ m)) })

/-- Modelled from the spec: `determineIncludeTimeField` of the missing
`bucket_unpacker.cpp` — membership of the time field name in the field
set, XORed against exclude mode. -/
def determineIncludeTimeField (behavior : Behavior) (spec : BucketSpec) : Bool :=
  (behavior == Behavior.kInclude) == decide (spec.timeField ∈ spec.fieldSet)

/-- Modelled from the spec: `determineIncludeField` of the missing
`bucket_unpacker.cpp` — the same allow/deny rule applied to an arbitrary
field name. -/
def determineIncludeField (fieldName : String) (behavior : Behavior)
    (spec : BucketSpec) : Bool :=
  (behavior == Behavior.kInclude) == decide (fieldName ∈ spec.fieldSet)

/-- Version-1 (uncompressed) column: row-key string → value, in storage
order. -/
abbrev ColumnV1 := List (String × BsonValue)

/-- Version-2 column in its decoded form: position → value-or-skip, which
is the output contract of the external columnar decoder (random access by
index, missing distinct from null). -/
abbrev ColumnV2 := List (Option BsonValue)

/-- A column of a bucket's `data` region. -/
inductive Column where
  | v1 (rows : ColumnV1)
  | v2 (rows : ColumnV2)
deriving DecidableEq, Repr

/-- Number of rows a column spans. -/
def Column.size : Column → Nat
  | .v1 rows => rows.length
  | .v2 rows => rows.length

/-- A bucket as handed to `reset`: the `control` region (reduced to its
version tag, which is all the unpacker reads from it), the optional
top-level `meta` value (`none` = the key is absent), and the `data`
region. -/
structure Bucket where
  controlVersion : Option Nat
  meta : Option BsonValue
  data : Option (List (String × Column))
deriving DecidableEq, Repr

/-- The typed `reset` failures.  The source surfaces them as numeric uassert
codes (5346510, 5369600, 5369601); per the spec only their distinctness is
contractual, which the inductive renders by construction. -/
inductive UnpackError where
  | malformedBucket
  | undefinedMeta
  | unexpectedMeta
deriving DecidableEq, Repr

/-- An output measurement record: an ordered flat field list, matching the
order-sensitive document equality the tests assert with. -/
abbrev Record := List (String × BsonValue)

/-- The spec/behavior-derived part of the unpacker, fixed at construction:
the meta-stripped spec plus the two resolved include flags. -/
structure UnpackerConfig where
  spec : BucketSpec
  behavior : Behavior
  includeMetaField : Bool
  includeTimeField : Bool
deriving DecidableEq, Repr

/-- Modelled from the spec: the `BucketUnpacker` constructor — resolves
the include-meta flag (stripping the meta name from the field set) and
the include-time flag. -/
def mkUnpackerConfig (spec : BucketSpec) (behavior : Behavior) : UnpackerConfig :=
  let em := eraseMetaFromFieldSetAndDetermineIncludeMeta behavior spec
  { spec := em.2
    behavior := behavior
    includeMetaField := em.1
    includeTimeField := determineIncludeTimeField behavior em.2 }

/-- The unpacker's iteration state after a successful `reset`: the config,
the captured meta value, the time column (the iteration driver), the full
`data` region in storage order, and the forward cursor. -/
structure Unpacker where
  config : UnpackerConfig
  metaValue : Option BsonValue
  timeColumn : Column
  dataColumns : List (String × Column)
  cursor : Nat
deriving DecidableEq, Repr

/-- Meta validation step of `reset`: with a meta field name configured, a
BSON-undefined meta is rejected (absent or any other value is captured);
with no name configured, any top-level meta is rejected as unexpected. -/
def metaCheck : Option String → Option BsonValue →
    Except UnpackError (Option BsonValue)
  | some _, some BsonValue.undefined => .error .undefinedMeta
  | some _, mv => .ok mv
  | none, some _ => .error .unexpectedMeta
  | none, none => .ok none

/-- Modelled from the spec: `BucketUnpacker::reset` of the missing
`bucket_unpacker.cpp`.  Fails with `malformedBucket` when `control` or
`data` is missing, or when a non-empty `data` region lacks the time
column; validates `meta` per `metaCheck`; an empty `data` region yields an
immediately exhausted unpacker. -/
def reset (cfg : UnpackerConfig) (bucket : Bucket) : Except UnpackError Unpacker :=
  match bucket.controlVersion with
  | none => .error .malformedBucket
  | some _ =>
    match metaCheck cfg.spec.metaField bucket.meta with
    | .error e => .error e
    | .ok mv =>
      match bucket.data with
      | none => .error .malformedBucket
      | some cols =>
        if cols.isEmpty then
          .ok { config := cfg, metaValue := mv, timeColumn := Column.v1 [],
                dataColumns := [], cursor := 0 }
        else
          match List.lookup cfg.spec.timeField cols with
          | none => .error .malformedBucket
          | some tc =>
            .ok { config := cfg, metaValue := mv, timeColumn := tc,
                  dataColumns := cols, cursor := 0 }

/-- Decimal digit character. -/
def digitChar (n : Nat) : Char := Char.ofNat (48 + n)

/-- Fuel-driven decimal digit list (most significant first); total and
structurally recursive so that concrete row keys evaluate inside the
kernel.  Adequate whenever `n ≤ fuel`. -/
def decCharsAux : Nat → Nat → List Char
  | 0, n => [digitChar (n % 10)]
  | fuel + 1, n =>
    if n < 10 then [digitChar n]
    else decCharsAux fuel (n / 10) ++ [digitChar (n % 10)]

/-- Decimal digits of `n`. -/
def decChars (n : Nat) : List Char := decCharsAux n n

/-- Decimal string of `n`: the model of the row-key labels produced by
`DecimalCounter` and of `std::to_string` on row indexes. -/
def decStr (n : Nat) : String := String.mk (decChars n)

/-- Value of a column at a row: version-1 columns are looked up by the
row-key string, decoded version-2 columns by position. -/
def Column.valueAt : Column → String → Nat → Option BsonValue
  | .v1 rows, key, _ => List.lookup key rows
  | .v2 rows, _, idx => (rows.get? idx).bind id

/-- Row-key string of the k-th row of the iteration driver. -/
def Column.rowKeyAt : Column → Nat → String
  | .v1 rows, k => ((rows.get? k).map Prod.fst).getD ""
  | .v2 _, k => decStr k

/-- Time value of the k-th row of the time column. -/
def Column.timeValueAt : Column → Nat → Option BsonValue
  | .v1 rows, k => (rows.get? k).map Prod.snd
  | .v2 rows, k => (rows.get? k).bind id

/-- Meta part of an output record: the single bucket-wide value under its
declared name, present iff meta is included and the bucket carried a meta
value (null included; absent meta contributes nothing). -/
def metaPart (u : Unpacker) : Record :=
  match u.config.includeMetaField, u.metaValue, u.config.spec.metaField with
  | true, some v, some m => [(m, v)]
  | _, _, _ => []

/-- Builds the output record for the k-th row of the loaded bucket: time
field first (when included), then meta, then every other included column's
value at this row, silently skipping columns with no value there (sparse
columns).  Columns are visited in `data`-region storage order. -/
def materializeRow (u : Unpacker) (k : Nat) : Record :=
  let key := u.timeColumn.rowKeyAt k
  let timeRec : Record :=
    if u.config.includeTimeField then
      match u.timeColumn.timeValueAt k with
      | some v => [(u.config.spec.timeField, v)]
      | none => []
    else []
  let fieldRec : Record :=
    u.dataColumns.filterMap (fun nc =>
      if nc.1 == u.config.spec.timeField then none
      else if determineIncludeField nc.1 u.config.behavior u.config.spec then
        (nc.2.valueAt key k).map (fun v => (nc.1, v))
      else none)
  timeRec ++ metaPart u ++ fieldRec

/-- Whether another measurement is available. -/
def hasNext (u : Unpacker) : Bool := u.cursor < u.timeColumn.size

/-- Produces the measurement at the cursor and advances it; `none` once
exhausted (calling it then is a caller error in the source). -/
def getNext (u : Unpacker) : Option (Record × Unpacker) :=
  if u.cursor < u.timeColumn.size then
    some (materializeRow u u.cursor, { u with cursor := u.cursor + 1 })
  else none

/-- Modelled from the spec: `BucketUnpacker::extractSingleMeasurement` of
the missing `bucket_unpacker.cpp`.  Random-access extraction of row `j`:
meta first, then every included column of the `data` region (the time
column among them, in place) looked up at row key `to_string(j)`; the
forward cursor is not consulted or moved. -/
def extractSingleMeasurement (u : Unpacker) (j : Nat) : Option Record :=
  if j < u.timeColumn.size then
    some (metaPart u ++
      u.dataColumns.filterMap (fun nc =>
        if determineIncludeField nc.1 u.config.behavior u.config.spec then
          (nc.2.valueAt (decStr j) j).map (fun v => (nc.1, v))
        else none))
  else none

/-- Drains at most `fuel` measurements by successive `getNext` calls. -/
def drainAux : Nat → Unpacker → List Record
  | 0, _ => []
  | fuel + 1, u =>
    match getNext u with
    | none => []
    | some ru => ru.1 :: drainAux fuel ru.2

/-- All remaining measurements, in `getNext` order. -/
def drain (u : Unpacker) : List Record := drainAux (u.timeColumn.size - u.cursor) u

/-- Resets a fresh unpacker on `bucket` and returns the full output
sequence, or `none` when `reset` fails. -/
def unpackOutputs (cfg : UnpackerConfig) (bucket : Bucket) : Option (List Record) :=
  (reset cfg bucket).toOption.map drain

/-- Whether `reset` succeeds on `bucket`. -/
def resetSucceeds (cfg : UnpackerConfig) (bucket : Bucket) : Bool :=
  match reset cfg bucket with
  | .ok _ => true
  | .error _ => false

/-- The error `reset` fails with, if any. -/
def resetError (cfg : UnpackerConfig) (bucket : Bucket) : Option UnpackError :=
  match reset cfg bucket with
  | .ok _ => none
  | .error e => some e

/-- Accumulating decimal parse of a leading digit run. -/
def atoiChars : Nat → List Char → Nat
  | acc, [] => acc
  | acc, c :: cs =>
    if 48 ≤ c.toNat ∧ c.toNat ≤ 57 then atoiChars (acc * 10 + (c.toNat - 48)) cs
    else acc

/-- Parse of a row-key label, with `std::atoi`'s 0-on-garbage behavior. -/
def atoiNat (s : String) : Nat := atoiChars 0 s.data

/-- One column through the test suite's simple bucket compressor: values
appended in storage order, skipping up to each entry's parsed row index. -/
def compressColumn (rows : ColumnV1) : ColumnV2 :=
  rows.foldl (fun acc kv =>
    (acc ++ List.replicate (atoiNat kv.1 - acc.length) none) ++ [some kv.2]) []

/-- Pads a compressed column with trailing skips up to `n` entries. -/
def padColumn (n : Nat) (c : ColumnV2) : ColumnV2 :=
  c ++ List.replicate (n - c.length) none

/-- The test suite's simple bucket compressor (fixture generator for
version-2 buckets): rewrites the control version to 2, keeps `meta`
unchanged, and converts every `data` column to its compressed form, padded
with skips to the time column's length. -/
def compress (bucket : Bucket) (timeField : String) : Bucket :=
  { controlVersion := bucket.controlVersion.map (fun _ => 2)
    meta := bucket.meta
    data := bucket.data.map (fun cols =>
      let numTime :=
        match List.lookup timeField cols with
        | some c => c.size
        | none => 0
      cols.map (fun nc =>
        match nc.2 with
        | Column.v1 rows => (nc.1, Column.v2 (padColumn numTime (compressColumn rows)))
        | c => (nc.1, c))) }

/-! Fixtures from the test suite.  The user-defined time field name is
`time` and the user-defined meta field name is `myMeta` throughout. -/

/-- The shared meta value `{m1: 999, m2: 9999}` of the fixtures. -/
def metaM1M2 : BsonValue := BsonValue.obj [("m1", 999), ("m2", 9999)]

/-- Spec of `UnpackBasicIncludeAllMeasurementFields`: include-fields
`{_id, myMeta, time, a, b}` (in `std::set` order). -/
def includeAllSpec : BucketSpec :=
  { timeField := "time", metaField := some "myMeta",
    fieldSet := ["_id", "a", "b", "myMeta", "time"] }

/-- Spec with an empty field set and the meta field name configured, used
by the exclude-mode fixtures. -/
def emptyExcludeSpec : BucketSpec :=
  { timeField := "time", metaField := some "myMeta", fieldSet := [] }

/-- Spec with an empty field set and no meta field name configured. -/
def noMetaSpec : BucketSpec :=
  { timeField := "time", metaField := none, fieldSet := [] }

/-- Bucket of `UnpackBasicIncludeAllMeasurementFields`: meta
`{m1:999,m2:9999}`, `_id = {0:1,1:2}`, `time = {0:1,1:2}`, `a = {0:1,1:2}`,
`b = {1:1}`. -/
def basicBucket : Bucket :=
  { controlVersion := some 1
    meta := some metaM1M2
    data := some [
      ("_id", Column.v1 [("0", .int 1), ("1", .int 2)]),
      ("time", Column.v1 [("0", .int 1), ("1", .int 2)]),
      ("a", Column.v1 [("0", .int 1), ("1", .int 2)]),
      ("b", Column.v1 [("1", .int 1)])] }

/-- Bucket of `UnorderedRowKeysDoesntAffectMaterialization`: row keys
stored in the order `1, 0, 2` in both columns. -/
def unorderedBucket : Bucket :=
  { controlVersion := some 1
    meta := some metaM1M2
    data := some [
      ("_id", Column.v1 [("1", .int 1), ("0", .int 2), ("2", .int 3)]),
      ("time", Column.v1 [("1", .int 1), ("0", .int 2), ("2", .int 3)])] }

/-- The same logical bucket as `unorderedBucket` with the internal key
order of every column permuted into ascending numeric order. -/
def unorderedBucketSorted : Bucket :=
  { controlVersion := some 1
    meta := some metaM1M2
    data := some [
      ("_id", Column.v1 [("0", .int 2), ("1", .int 1), ("2", .int 3)]),
      ("time", Column.v1 [("0", .int 2), ("1", .int 1), ("2", .int 3)])] }

/-- Bucket of `GetNextHandlesMissingMetaInBucket`: no top-level `meta` key
at all. -/
def missingMetaBucket : Bucket :=
  { controlVersion := some 1
    meta := none
    data := some [
      ("_id", Column.v1 [("0", .int 4), ("1", .int 5), ("2", .int 6)]),
      ("time", Column.v1 [("0", .int 4), ("1", .int 5), ("2", .int 6)])] }

/-- Bucket of `UnpackerResetThrowsOnUndefinedMeta`: `meta: undefined`. -/
def undefinedMetaBucket : Bucket :=
  { controlVersion := some 1
    meta := some BsonValue.undefined
    data := some [
      ("_id", Column.v1 [("0", .int 1), ("1", .int 2), ("2", .int 3)]),
      ("time", Column.v1 [("0", .int 1), ("1", .int 2), ("2", .int 3)])] }

/-- Bucket of `UnpackerResetThrowsOnUnexpectedMeta`: carries a meta value
while the spec declares no meta field name. -/
def unexpectedMetaBucket : Bucket :=
  { controlVersion := some 1
    meta := some metaM1M2
    data := some [
      ("_id", Column.v1 [("0", .int 1), ("1", .int 2), ("2", .int 3)]),
      ("time", Column.v1 [("0", .int 1), ("1", .int 2), ("2", .int 3)])] }

/-- Bucket of `EmptyDataRegionInBucketIsTolerated`: `data` present but
empty (the fixture's extra top-level `_id` is not read by the unpacker). -/
def emptyDataBucket : Bucket :=
  { controlVersion := some 1
    meta := some metaM1M2
    data := some [] }

/-- Bucket of `ExtractSingleMeasurement` (dates abbreviated to their hour
offsets). -/
def extractBucket : Bucket :=
  { controlVersion := some 1
    meta := some metaM1M2
    data := some [
      ("_id", Column.v1 [("0", .int 1), ("1", .int 2), ("2", .int 3)]),
      ("time", Column.v1 [("0", .date 0), ("1", .date 1), ("2", .date 2)]),
      ("a", Column.v1 [("0", .int 1), ("1", .int 2), ("2", .int 3)]),
      ("b", Column.v1 [("1", .int 1), ("2", .int 2)])] }

/-! Measurement-count estimation (`computeMeasurementCount`).  For an
uncompressed bucket it is driven by the serialized BSON byte size of the
time column and a fixed table mapping measurement counts at the
power-of-ten row-key-width breakpoints to the serialized size of that many
timestamp entries. -/

/-- Serialized payload size in bytes of a value, per the BSON encoding:
int32 = 4, date = 8, null and undefined = 0, an object = 4 length bytes +
each field's (1 type byte + name + NUL + int32 payload) + 1 terminator. -/
def bsonValueSize : BsonValue → Nat
  | .int _ => 4
  | .date _ => 8
  | .null => 0
  | .undefined => 0
  | .obj pairs => 5 + (pairs.map (fun p => 2 + p.1.length + 4)).sum

/-- Serialized BSON object size of a version-1 column: 4 length bytes +
each entry's (1 type byte + key + NUL + payload) + 1 terminator. -/
def columnObjSize (rows : ColumnV1) : Nat :=
  5 + (rows.map (fun p => 2 + p.1.length + bsonValueSize p.2)).sum

/-- Number of decimal digits of `n`. -/
def numDigits (n : Nat) : Nat := Nat.log 10 n + 1

/-- Serialized BSON object size of a time column holding `n` timestamp
entries labelled with the consecutive decimal row keys `0 .. n-1`: each
entry costs 1 type byte + (digits + 1) key bytes + 8 payload bytes. -/
def tsObjSize : Nat → Nat
  | 0 => 5
  | n + 1 => tsObjSize n + (10 + numDigits n)

/-- Modelled from the spec: the fixed timestamp-column size table
(`BucketUnpackerV1::kTimestampObjSizeTable` of the missing
`bucket_unpacker.cpp`): measurement count at each power-of-ten row-key
width transition, paired with the serialized size of that many timestamp
entries. -/
def kTimestampObjSizeTable : List (Nat × Nat) :=
  [(0, 5), (10, 115), (100, 1195), (1000, 12895), (10000, 138895),
   (100000, 1488895), (1000000, 15888895), (10000000, 168888895)]

/-- Modelled from the spec: the interval search of
`computeMeasurementCount` — find the first table entry whose size bounds
the target; on an exact hit return its count, otherwise step back to the
previous entry and recover the exact count by direct arithmetic, the
per-entry byte cost being constant within a bracket. -/
def intervalSearch (target : Nat) :
    Option (Nat × Nat) → List (Nat × Nat) → Option Nat
  | _, [] => none
  | prev, (c, s) :: rest =>
    if target ≤ s then
      if target = s then some c
      else
        match prev with
        | none => none
        | some p => some (p.1 + (target - p.2) / (10 + numDigits p.1))
    else intervalSearch target (some (c, s)) rest

/-- Modelled from the spec: `BucketUnpacker::computeMeasurementCount` of
the missing `bucket_unpacker.cpp` — reads the time column of an
uncompressed bucket's `data` region and recovers the measurement count
from its serialized size via the table. -/
def computeMeasurementCount (bucket : Bucket) (timeField : String) : Option Nat :=
  match bucket.data with
  | none => none
  | some cols =>
    match List.lookup timeField cols with
    | some (Column.v1 rows) => intervalSearch (columnObjSize rows) none kTimestampObjSizeTable
    | _ => none

/-- Time column with `n` timestamp entries under consecutive decimal row
keys, as built by `buildUncompressedBucketForMeasurementCount` (the dates'
values are irrelevant to sizes and are taken as 0). -/
def timeColumnOfCount (n : Nat) : ColumnV1 :=
  (List.range n).map (fun i => (decStr i, BsonValue.date 0))

/-- The test helper `buildUncompressedBucketForMeasurementCount`: a
version-1 bucket whose `data` region holds only the time column with `n`
consecutive decimal row keys. -/
def buildUncompressedBucketForMeasurementCount (n : Nat) : Bucket :=
  { controlVersion := some 1
    meta := none
    data := some [("time", Column.v1 (timeColumnOfCount n))] }

instance : Inhabited Unpacker :=
  ⟨{ config := mkUnpackerConfig noMetaSpec Behavior.kExclude, metaValue := none,
     timeColumn := Column.v1 [], dataColumns := [], cursor := 0 }⟩

/-- The unpacker produced by a successful `reset` (junk on failure; only
used at buckets `reset` is separately proved to accept). -/
def resetD (cfg : UnpackerConfig) (bucket : Bucket) : Unpacker :=
  (reset cfg bucket).toOption.getD default

/-- State after one `getNext` call (unchanged when exhausted). -/
def advance (u : Unpacker) : Unpacker := ((getNext u).map Prod.snd).getD u

/-- Unpacker configurations used by the fixtures. -/
def basicCfg : UnpackerConfig := mkUnpackerConfig includeAllSpec Behavior.kInclude

/-- Exclude-nothing configuration with the meta field name configured. -/
def excludeNoneCfg : UnpackerConfig := mkUnpackerConfig emptyExcludeSpec Behavior.kExclude

/-- Exclude-nothing configuration with no meta field name. -/
def noMetaCfg : UnpackerConfig := mkUnpackerConfig noMetaSpec Behavior.kExclude

/-- C1: on the basic bucket with include-fields `{_id, myMeta, time, a, b}`
and meta field name `myMeta`, successive `getNext` calls produce exactly
record 0 = `{time:1, myMeta:{m1:999,m2:9999}, _id:1, a:1}` (no `b`: it has
no value at row 0) and record 1 = `{time:2, myMeta:{m1:999,m2:9999}, _id:2,
a:2, b:1}`, after which `hasNext` is false. -/
theorem unpackBasicIncludeAllMeasurementFields :
    resetSucceeds basicCfg basicBucket = true
    ∧ drain (resetD basicCfg basicBucket) =
        [[("time", BsonValue.int 1), ("myMeta", metaM1M2),
          ("_id", BsonValue.int 1), ("a", BsonValue.int 1)],
         [("time", BsonValue.int 2), ("myMeta", metaM1M2),
          ("_id", BsonValue.int 2), ("a", BsonValue.int 2), ("b", BsonValue.int 1)]]
    ∧ hasNext (advance (advance (resetD basicCfg basicBucket))) = false := by
  decide

/-- C2 counterexample: on the `UnorderedRowKeysDoesntAffectMaterialization`
bucket (keys stored in the order `1, 0, 2`) the output sequence follows the
time column's storage order — times `1, 2, 3` with the matching `_id`s —
and differs from the output of the same logical bucket with its internal
key order permuted into ascending numeric order, which yields times
`2, 1, 3`.  Hence the output is not the ascending numeric order of the
row-key strings, and permuting the internal key order does change the
output sequence. -/
theorem unorderedRowKeys_ascending_order_refuted :
    unpackOutputs excludeNoneCfg unorderedBucket =
      some [[("time", BsonValue.int 1), ("myMeta", metaM1M2), ("_id", BsonValue.int 1)],
            [("time", BsonValue.int 2), ("myMeta", metaM1M2), ("_id", BsonValue.int 2)],
            [("time", BsonValue.int 3), ("myMeta", metaM1M2), ("_id", BsonValue.int 3)]]
    ∧ unpackOutputs excludeNoneCfg unorderedBucketSorted =
      some [[("time", BsonValue.int 2), ("myMeta", metaM1M2), ("_id", BsonValue.int 2)],
            [("time", BsonValue.int 1), ("myMeta", metaM1M2), ("_id", BsonValue.int 1)],
            [("time", BsonValue.int 3), ("myMeta", metaM1M2), ("_id", BsonValue.int 3)]]
    ∧ unpackOutputs excludeNoneCfg unorderedBucket ≠
        unpackOutputs excludeNoneCfg unorderedBucketSorted := by
  decide

/-- C4 counterexample: with the meta field name `myMeta` configured and the
`GetNextHandlesMissingMetaInBucket` bucket, which has no top-level `meta`
key at all, `reset` succeeds — it does not fail with any error. -/
theorem missingMeta_reset_does_not_fail :
    resetSucceeds excludeNoneCfg missingMetaBucket = true := by
  decide

/-- C4 amended: when a meta field name is configured but the bucket has no
top-level `meta` key, `reset` succeeds and the measurements are produced
normally, with no meta field in any output record. -/
theorem missingMeta_reset_succeeds_and_omits_meta :
    resetSucceeds excludeNoneCfg missingMetaBucket = true
    ∧ unpackOutputs excludeNoneCfg missingMetaBucket =
        some [[("time", BsonValue.int 4), ("_id", BsonValue.int 4)],
              [("time", BsonValue.int 5), ("_id", BsonValue.int 5)],
              [("time", BsonValue.int 6), ("_id", BsonValue.int 6)]] := by
  decide

/-- C6: for every field name and every field set, include-mode resolution
is the pointwise negation of exclude-mode resolution. -/
theorem determineIncludeField_complement (f : String) (spec : BucketSpec) :
    determineIncludeField f Behavior.kInclude spec =
      ! determineIncludeField f Behavior.kExclude spec := by
  by_cases h : f ∈ spec.fieldSet <;> simp [determineIncludeField, h]

/-- C7: `eraseMetaFromFieldSetAndDetermineIncludeMeta` returns true iff a
meta field name is configured and either the behavior is include with the
name in the field set, or exclude with the name not in the set; it strips
the meta field name from the field set; and with no meta field name
configured it returns false with the spec unchanged. -/
theorem eraseMeta_policy (behavior : Behavior) (spec : BucketSpec) :
    ((eraseMetaFromFieldSetAndDetermineIncludeMeta behavior spec).1 = true ↔
      ∃ m, spec.metaField = some m ∧
        ((behavior = Behavior.kInclude ∧ m ∈ spec.fieldSet) ∨
          (behavior = Behavior.kExclude ∧ m ∉ spec.fieldSet)))
    ∧ (∀ m, spec.metaField = some m →
        ∀ f, f ∈ (eraseMetaFromFieldSetAndDetermineIncludeMeta behavior spec).2.fieldSet ↔
          (f ∈ spec.fieldSet ∧ f ≠ m))
    ∧ (spec.metaField = none →
        eraseMetaFromFieldSetAndDetermineIncludeMeta behavior spec = (false, spec)) := by
  obtain ⟨tf, mf, fs⟩ := spec
  cases mf with
  | none => simp [eraseMetaFromFieldSetAndDetermineIncludeMeta]
  | some m =>
    refine ⟨?_, ?_, by simp⟩
    · cases behavior <;> by_cases h : m ∈ fs <;>
        simp [eraseMetaFromFieldSetAndDetermineIncludeMeta, h]
    · intro m' hm' f
      rw [Option.some.injEq] at hm'
      subst hm'
      simp [eraseMetaFromFieldSetAndDetermineIncludeMeta, List.mem_filter]

/-- C8: with a meta field name configured and the bucket's `meta` holding
the BSON `undefined` sentinel, `reset` fails with the `undefinedMeta`
error, for the uncompressed bucket and for its compressed form alike, and
that error is distinct from the other two reset errors. -/
theorem unpackerResetThrowsOnUndefinedMeta :
    resetError excludeNoneCfg undefinedMetaBucket = some UnpackError.undefinedMeta
    ∧ resetError excludeNoneCfg (compress undefinedMetaBucket "time") =
        some UnpackError.undefinedMeta
    ∧ UnpackError.undefinedMeta ≠ UnpackError.malformedBucket
    ∧ UnpackError.undefinedMeta ≠ UnpackError.unexpectedMeta := by
  decide

/-- C9: with no meta field name configured and a bucket carrying a
top-level `meta` value, `reset` fails with the `unexpectedMeta` error
(uncompressed and compressed), distinct from `undefinedMeta` and
`malformedBucket`. -/
theorem unpackerResetThrowsOnUnexpectedMeta :
    resetError noMetaCfg unexpectedMetaBucket = some UnpackError.unexpectedMeta
    ∧ resetError noMetaCfg (compress unexpectedMetaBucket "time") =
        some UnpackError.unexpectedMeta
    ∧ UnpackError.unexpectedMeta ≠ UnpackError.undefinedMeta
    ∧ UnpackError.unexpectedMeta ≠ UnpackError.malformedBucket := by
  decide

/-- C10: a bucket whose `data` region is present but empty resets without
error and the unpacker is immediately exhausted — `hasNext` is false and
zero records are produced — also after compression. -/
theorem emptyDataRegionInBucketIsTolerated :
    resetSucceeds excludeNoneCfg emptyDataBucket = true
    ∧ hasNext (resetD excludeNoneCfg emptyDataBucket) = false
    ∧ unpackOutputs excludeNoneCfg emptyDataBucket = some []
    ∧ resetSucceeds excludeNoneCfg (compress emptyDataBucket "time") = true
    ∧ hasNext (resetD excludeNoneCfg (compress emptyDataBucket "time")) = false
    ∧ unpackOutputs excludeNoneCfg (compress emptyDataBucket "time") = some [] := by
  decide

/-- Record construction does not read the cursor. -/
theorem materializeRow_cursor_irrelevant (u : Unpacker) (c k : Nat) :
    materializeRow { u with cursor := c } k = materializeRow u k := rfl

/-- Draining with exactly the remaining fuel visits each remaining row
position once, in positional (storage) order of the time column. -/
theorem drainAux_eq_map (fuel : Nat) :
    ∀ u : Unpacker, u.timeColumn.size - u.cursor = fuel →
      drainAux fuel u =
        ((List.range u.timeColumn.size).drop u.cursor).map (materializeRow u) := by
  induction fuel with
  | zero =>
    intro u h
    have hle : (List.range u.timeColumn.size).length ≤ u.cursor := by
      rw [List.length_range]; omega
    rw [drainAux, List.drop_eq_nil_of_le hle, List.map_nil]
  | succ fuel ih =>
    intro u h
    have hc : u.cursor < u.timeColumn.size := by omega
    have hg : getNext u =
        some (materializeRow u u.cursor, { u with cursor := u.cursor + 1 }) := by
      rw [getNext, if_pos hc]
    have hstep : drainAux (fuel + 1) u =
        materializeRow u u.cursor :: drainAux fuel { u with cursor := u.cursor + 1 } := by
      rw [drainAux, hg]
    rw [hstep]
    have hlen : u.cursor < (List.range u.timeColumn.size).length := by
      rw [List.length_range]; exact hc
    rw [List.drop_eq_getElem_cons hlen, List.map_cons, List.getElem_range]
    rw [ih { u with cursor := u.cursor + 1 } (by simp; omega)]
    rfl

/-- C2 amended: the sequence of records produced by successive `getNext`
calls materializes the rows in the time column's positional storage
(enumeration) order — one record per remaining row position, in order —
rather than in ascending numeric order of the row-key strings; permuting
the internal key order therefore permutes the output sequence
correspondingly (see the counterexample for a bucket where the two orders
differ). -/
theorem getNext_follows_time_column_storage_order (u : Unpacker) :
    drain u = ((List.range u.timeColumn.size).drop u.cursor).map (materializeRow u) :=
  drainAux_eq_map _ u rfl

/-- A session command against a live unpacker: a forward `getNext` step or
a random-access `extractSingleMeasurement`. -/
inductive UnpackCmd where
  | next
  | extract (i : Nat)

/-- One session command: its response and the successor state. -/
def stepCmd (u : Unpacker) : UnpackCmd → Option Record × Unpacker
  | .next =>
    match getNext u with
    | some ru => (some ru.1, ru.2)
    | none => (none, u)
  | .extract i => (extractSingleMeasurement u i, u)

/-- Responses of a command sequence run against an unpacker. -/
def runCmds (u : Unpacker) : List UnpackCmd → List (Option Record)
  | [] => []
  | c :: cs => (stepCmd u c).1 :: runCmds (stepCmd u c).2 cs

/-- Random-access extraction does not read the cursor. -/
theorem extract_cursor_irrelevant (u : Unpacker) (c i : Nat) :
    extractSingleMeasurement { u with cursor := c } i = extractSingleMeasurement u i :=
  rfl

/-- No session command changes what extraction returns. -/
theorem extract_after_step (u : Unpacker) (c : UnpackCmd) (i : Nat) :
    extractSingleMeasurement (stepCmd u c).2 i = extractSingleMeasurement u i := by
  cases c with
  | extract j => rfl
  | next =>
    rw [stepCmd, getNext]
    by_cases hc : u.cursor < u.timeColumn.size
    · rw [if_pos hc]
      exact extract_cursor_irrelevant u (u.cursor + 1) i
    · rw [if_neg hc]

/-- C5: in any session, an `extractSingleMeasurement i` response equals the
fresh-state response for `i` no matter which `getNext` and extraction calls
for the same or other indices came before it — so repeated extractions of
the same index always return equal records — and an extraction step leaves
the unpacker state, its forward cursor included, unchanged. -/
theorem extractSingleMeasurement_stable (u : Unpacker) (cs : List UnpackCmd) (i : Nat) :
    runCmds u (cs ++ [UnpackCmd.extract i]) =
      runCmds u cs ++ [extractSingleMeasurement u i]
    ∧ stepCmd u (UnpackCmd.extract i) = (extractSingleMeasurement u i, u) := by
  constructor
  · induction cs generalizing u with
    | nil => rfl
    | cons c cs ih =>
      simp only [List.cons_append, runCmds, List.append_eq]
      rw [ih, extract_after_step]
  · rfl

/-- Digit count of the fuel-driven decimal rendering, for adequate fuel. -/
theorem decCharsAux_length (fuel : Nat) :
    ∀ n, n ≤ fuel → (decCharsAux fuel n).length = numDigits n := by
  induction fuel with
  | zero =>
    intro n hn
    have h0 : n = 0 := by omega
    subst h0
    simp [decCharsAux, numDigits]
  | succ fuel ih =>
    intro n hn
    by_cases h : n < 10
    · have hlog : Nat.log 10 n = 0 := Nat.log_eq_zero_iff.mpr (Or.inl h)
      simp [decCharsAux, h, numDigits, hlog]
    · have hpos : 0 < n := by omega
      have hdiv : n / 10 < n := Nat.div_lt_self hpos (by omega)
      have hfuel : n / 10 ≤ fuel := by omega
      have hlog : 0 < Nat.log 10 n := Nat.log_pos (by omega) (by omega)
      have h2 : Nat.log 10 (n / 10) = Nat.log 10 n - 1 := Nat.log_div_base 10 n
      have h1 := ih (n / 10) hfuel
      show (if n < 10 then [digitChar n]
            else decCharsAux fuel (n / 10) ++ [digitChar (n % 10)]).length = numDigits n
      rw [if_neg h, List.length_append, h1]
      simp only [numDigits, List.length_cons, List.length_nil] at *
      omega

/-- Length of the decimal row-key label of `n` is its digit count. -/
theorem decStr_length (n : Nat) : (decStr n).length = numDigits n :=
  decCharsAux_length n n le_rfl

/-- Numbers below ten have one digit. -/
theorem numDigits_lt_ten (k : Nat) (h : k < 10) : numDigits k = 1 := by
  rw [numDigits, Nat.log_eq_zero_iff.mpr (Or.inl h)]

/-- Digit count between consecutive powers of ten. -/
theorem numDigits_bracket (i k : Nat) (h1 : 10 ^ i ≤ k) (h2 : k < 10 ^ (i + 1)) :
    numDigits k = i + 1 := by
  rw [numDigits, Nat.log_eq_of_pow_le_of_lt_pow h1 h2]

theorem numDigits_d2 (k : Nat) (h1 : 10 ≤ k) (h2 : k < 100) : numDigits k = 2 := by
  have h := numDigits_bracket 1 k
  norm_num at h
  exact h h1 h2

theorem numDigits_d3 (k : Nat) (h1 : 100 ≤ k) (h2 : k < 1000) : numDigits k = 3 := by
  have h := numDigits_bracket 2 k
  norm_num at h
  exact h h1 h2

theorem numDigits_d4 (k : Nat) (h1 : 1000 ≤ k) (h2 : k < 10000) : numDigits k = 4 := by
  have h := numDigits_bracket 3 k
  norm_num at h
  exact h h1 h2

theorem numDigits_d5 (k : Nat) (h1 : 10000 ≤ k) (h2 : k < 100000) : numDigits k = 5 := by
  have h := numDigits_bracket 4 k
  norm_num at h
  exact h h1 h2

theorem numDigits_d6 (k : Nat) (h1 : 100000 ≤ k) (h2 : k < 1000000) : numDigits k = 6 := by
  have h := numDigits_bracket 5 k
  norm_num at h
  exact h h1 h2

theorem numDigits_d7 (k : Nat) (h1 : 1000000 ≤ k) (h2 : k < 10000000) : numDigits k = 7 := by
  have h := numDigits_bracket 6 k
  norm_num at h
  exact h h1 h2

/-- Within a run of counts whose labels all have `d` digits, the time
column's serialized size grows by a constant `10 + d` bytes per entry. -/
theorem tsObjSize_run (b d : Nat) :
    ∀ j, (∀ k, b ≤ k → k < b + j → numDigits k = d) →
      tsObjSize (b + j) = tsObjSize b + j * (10 + d) := by
  intro j
  induction j with
  | zero => intro _; simp
  | succ j ih =>
    intro hall
    have hd : numDigits (b + j) = d := hall (b + j) (by omega) (by omega)
    have hstep : tsObjSize (b + (j + 1)) = tsObjSize (b + j) + (10 + numDigits (b + j)) := rfl
    rw [hstep, hd, ih (fun k hk1 hk2 => hall k hk1 (by omega)), Nat.succ_mul, Nat.add_assoc]

/-- Interval form of `tsObjSize_run`. -/
theorem tsObjSize_bracket_eq (b d n : Nat) (hbn : b ≤ n)
    (hall : ∀ k, b ≤ k → k < n → numDigits k = d) :
    tsObjSize n = tsObjSize b + (n - b) * (10 + d) := by
  have h := tsObjSize_run b d (n - b) (fun k hk1 hk2 => hall k hk1 (by omega))
  rw [Nat.add_sub_cancel' hbn] at h
  exact h

theorem tsObjSize_e0 : tsObjSize 0 = 5 := rfl

theorem tsObjSize_e1 : tsObjSize 10 = 115 := by
  have h := tsObjSize_bracket_eq 0 1 10 (by omega) (fun k _ hk => numDigits_lt_ten k (by omega))
  rw [tsObjSize_e0] at h
  omega

theorem tsObjSize_e2 : tsObjSize 100 = 1195 := by
  have h := tsObjSize_bracket_eq 10 2 100 (by omega)
    (fun k hk1 hk2 => numDigits_d2 k (by omega) (by omega))
  rw [tsObjSize_e1] at h
  omega

theorem tsObjSize_e3 : tsObjSize 1000 = 12895 := by
  have h := tsObjSize_bracket_eq 100 3 1000 (by omega)
    (fun k hk1 hk2 => numDigits_d3 k (by omega) (by omega))
  rw [tsObjSize_e2] at h
  omega

theorem tsObjSize_e4 : tsObjSize 10000 = 138895 := by
  have h := tsObjSize_bracket_eq 1000 4 10000 (by omega)
    (fun k hk1 hk2 => numDigits_d4 k (by omega) (by omega))
  rw [tsObjSize_e3] at h
  omega

theorem tsObjSize_e5 : tsObjSize 100000 = 1488895 := by
  have h := tsObjSize_bracket_eq 10000 5 100000 (by omega)
    (fun k hk1 hk2 => numDigits_d5 k (by omega) (by omega))
  rw [tsObjSize_e4] at h
  omega

theorem tsObjSize_e6 : tsObjSize 1000000 = 15888895 := by
  have h := tsObjSize_bracket_eq 100000 6 1000000 (by omega)
    (fun k hk1 hk2 => numDigits_d6 k (by omega) (by omega))
  rw [tsObjSize_e5] at h
  omega

theorem tsObjSize_e7 : tsObjSize 10000000 = 168888895 := by
  have h := tsObjSize_bracket_eq 1000000 7 10000000 (by omega)
    (fun k hk1 hk2 => numDigits_d7 k (by omega) (by omega))
  rw [tsObjSize_e6] at h
  omega

/-- The serialized size of the consecutive-key time column built for `n`
measurements is `tsObjSize n`. -/
theorem columnObjSize_timeColumn (n : Nat) :
    columnObjSize (timeColumnOfCount n) = tsObjSize n := by
  induction n with
  | zero => rfl
  | succ k ih =>
    have hstep : tsObjSize (k + 1) = tsObjSize k + (10 + numDigits k) := rfl
    rw [timeColumnOfCount, List.range_succ, List.map_append, columnObjSize, List.map_append,
        List.sum_append]
    rw [timeColumnOfCount, columnObjSize] at ih
    simp only [List.map_cons, List.map_nil, List.sum_cons, List.sum_nil, bsonValueSize,
      decStr_length] at ih ⊢
    omega

theorem intervalSearch_skip (t c s : Nat) (prev : Option (Nat × Nat))
    (rest : List (Nat × Nat)) (h : s < t) :
    intervalSearch t prev ((c, s) :: rest) = intervalSearch t (some (c, s)) rest := by
  simp only [intervalSearch]
  rw [if_neg (by omega)]

theorem intervalSearch_exact (t c s : Nat) (prev : Option (Nat × Nat))
    (rest : List (Nat × Nat)) (h : t = s) :
    intervalSearch t prev ((c, s) :: rest) = some c := by
  simp only [intervalSearch]
  rw [if_pos (by omega), if_pos h]

theorem intervalSearch_inBracket (t c s c0 s0 : Nat) (rest : List (Nat × Nat))
    (h1 : t ≤ s) (h2 : t ≠ s) :
    intervalSearch t (some (c0, s0)) ((c, s) :: rest) =
      some (c0 + (t - s0) / (10 + numDigits c0)) := by
  simp only [intervalSearch]
  rw [if_pos h1, if_neg h2]

theorem search_at_zero :
    intervalSearch (tsObjSize 0) none kTimestampObjSizeTable = some 0 := by
  rw [tsObjSize_e0, kTimestampObjSizeTable]
  exact intervalSearch_exact 5 0 5 none _ rfl

theorem search_bracket1 (n : Nat) (h1 : 0 < n) (h2 : n ≤ 10) :
    intervalSearch (tsObjSize n) none kTimestampObjSizeTable = some n := by
  have hts : tsObjSize n = 5 + n * 11 := by
    have h := tsObjSize_bracket_eq 0 1 n (by omega) (fun k _ hk => numDigits_lt_ten k (by omega))
    rw [tsObjSize_e0] at h
    omega
  rw [kTimestampObjSizeTable]
  rw [intervalSearch_skip _ _ _ _ _ (by omega)]
  by_cases he : n = 10
  · subst he
    exact intervalSearch_exact _ _ _ _ _ (by omega)
  · rw [intervalSearch_inBracket _ _ _ _ _ _ (by omega) (by omega)]
    rw [numDigits_lt_ten 0 (by omega)]
    congr 1
    omega

theorem search_bracket2 (n : Nat) (h1 : 10 < n) (h2 : n ≤ 100) :
    intervalSearch (tsObjSize n) none kTimestampObjSizeTable = some n := by
  have hts : tsObjSize n = 115 + (n - 10) * 12 := by
    have h := tsObjSize_bracket_eq 10 2 n (by omega)
      (fun k hk1 hk2 => numDigits_d2 k (by omega) (by omega))
    rw [tsObjSize_e1] at h
    omega
  rw [kTimestampObjSizeTable]
  rw [intervalSearch_skip _ _ _ _ _ (by omega)]
  rw [intervalSearch_skip _ _ _ _ _ (by omega)]
  by_cases he : n = 100
  · subst he
    exact intervalSearch_exact _ _ _ _ _ (by omega)
  · rw [intervalSearch_inBracket _ _ _ _ _ _ (by omega) (by omega)]
    rw [numDigits_d2 10 (by omega) (by omega)]
    congr 1
    omega

theorem search_bracket3 (n : Nat) (h1 : 100 < n) (h2 : n ≤ 1000) :
    intervalSearch (tsObjSize n) none kTimestampObjSizeTable = some n := by
  have hts : tsObjSize n = 1195 + (n - 100) * 13 := by
    have h := tsObjSize_bracket_eq 100 3 n (by omega)
      (fun k hk1 hk2 => numDigits_d3 k (by omega) (by omega))
    rw [tsObjSize_e2] at h
    omega
  rw [kTimestampObjSizeTable]
  rw [intervalSearch_skip _ _ _ _ _ (by omega)]
  rw [intervalSearch_skip _ _ _ _ _ (by omega)]
  rw [intervalSearch_skip _ _ _ _ _ (by omega)]
  by_cases he : n = 1000
  · subst he
    exact intervalSearch_exact _ _ _ _ _ (by omega)
  · rw [intervalSearch_inBracket _ _ _ _ _ _ (by omega) (by omega)]
    rw [numDigits_d3 100 (by omega) (by omega)]
    congr 1
    omega

theorem search_bracket4 (n : Nat) (h1 : 1000 < n) (h2 : n ≤ 10000) :
    intervalSearch (tsObjSize n) none kTimestampObjSizeTable = some n := by
  have hts : tsObjSize n = 12895 + (n - 1000) * 14 := by
    have h := tsObjSize_bracket_eq 1000 4 n (by omega)
      (fun k hk1 hk2 => numDigits_d4 k (by omega) (by omega))
    rw [tsObjSize_e3] at h
    omega
  rw [kTimestampObjSizeTable]
  rw [intervalSearch_skip _ _ _ _ _ (by omega)]
  rw [intervalSearch_skip _ _ _ _ _ (by omega)]
  rw [intervalSearch_skip _ _ _ _ _ (by omega)]
  rw [intervalSearch_skip _ _ _ _ _ (by omega)]
  by_cases he : n = 10000
  · subst he
    exact intervalSearch_exact _ _ _ _ _ (by omega)
  · rw [intervalSearch_inBracket _ _ _ _ _ _ (by omega) (by omega)]
    rw [numDigits_d4 1000 (by omega) (by omega)]
    congr 1
    omega

theorem search_bracket5 (n : Nat) (h1 : 10000 < n) (h2 : n ≤ 100000) :
    intervalSearch (tsObjSize n) none kTimestampObjSizeTable = some n := by
  have hts : tsObjSize n = 138895 + (n - 10000) * 15 := by
    have h := tsObjSize_bracket_eq 10000 5 n (by omega)
      (fun k hk1 hk2 => numDigits_d5 k (by omega) (by omega))
    rw [tsObjSize_e4] at h
    omega
  rw [kTimestampObjSizeTable]
  rw [intervalSearch_skip _ _ _ _ _ (by omega)]
  rw [intervalSearch_skip _ _ _ _ _ (by omega)]
  rw [intervalSearch_skip _ _ _ _ _ (by omega)]
  rw [intervalSearch_skip _ _ _ _ _ (by omega)]
  rw [intervalSearch_skip _ _ _ _ _ (by omega)]
  by_cases he : n = 100000
  · subst he
    exact intervalSearch_exact _ _ _ _ _ (by omega)
  · rw [intervalSearch_inBracket _ _ _ _ _ _ (by omega) (by omega)]
    rw [numDigits_d5 10000 (by omega) (by omega)]
    congr 1
    omega

theorem search_bracket6 (n : Nat) (h1 : 100000 < n) (h2 : n ≤ 1000000) :
    intervalSearch (tsObjSize n) none kTimestampObjSizeTable = some n := by
  have hts : tsObjSize n = 1488895 + (n - 100000) * 16 := by
    have h := tsObjSize_bracket_eq 100000 6 n (by omega)
      (fun k hk1 hk2 => numDigits_d6 k (by omega) (by omega))
    rw [tsObjSize_e5] at h
    omega
  rw [kTimestampObjSizeTable]
  rw [intervalSearch_skip _ _ _ _ _ (by omega)]
  rw [intervalSearch_skip _ _ _ _ _ (by omega)]
  rw [intervalSearch_skip _ _ _ _ _ (by omega)]
  rw [intervalSearch_skip _ _ _ _ _ (by omega)]
  rw [intervalSearch_skip _ _ _ _ _ (by omega)]
  rw [intervalSearch_skip _ _ _ _ _ (by omega)]
  by_cases he : n = 1000000
  · subst he
    exact intervalSearch_exact _ _ _ _ _ (by omega)
  · rw [intervalSearch_inBracket _ _ _ _ _ _ (by omega) (by omega)]
    rw [numDigits_d6 100000 (by omega) (by omega)]
    congr 1
    omega

theorem search_bracket7 (n : Nat) (h1 : 1000000 < n) (h2 : n ≤ 10000000) :
    intervalSearch (tsObjSize n) none kTimestampObjSizeTable = some n := by
  have hts : tsObjSize n = 15888895 + (n - 1000000) * 17 := by
    have h := tsObjSize_bracket_eq 1000000 7 n (by omega)
      (fun k hk1 hk2 => numDigits_d7 k (by omega) (by omega))
    rw [tsObjSize_e6] at h
    omega
  rw [kTimestampObjSizeTable]
  rw [intervalSearch_skip _ _ _ _ _ (by omega)]
  rw [intervalSearch_skip _ _ _ _ _ (by omega)]
  rw [intervalSearch_skip _ _ _ _ _ (by omega)]
  rw [intervalSearch_skip _ _ _ _ _ (by omega)]
  rw [intervalSearch_skip _ _ _ _ _ (by omega)]
  rw [intervalSearch_skip _ _ _ _ _ (by omega)]
  rw [intervalSearch_skip _ _ _ _ _ (by omega)]
  by_cases he : n = 10000000
  · subst he
    exact intervalSearch_exact _ _ _ _ _ (by omega)
  · rw [intervalSearch_inBracket _ _ _ _ _ _ (by omega) (by omega)]
    rw [numDigits_d7 1000000 (by omega) (by omega)]
    congr 1
    omega

/-- C3: for every measurement count up to the largest table breakpoint,
`computeMeasurementCount` on the uncompressed bucket built with `n`
consecutive decimal row keys returns exactly `n` — covering `n = 0`, every
power-of-ten boundary, the counts just below each boundary, and every
count between breakpoints (2222, 11111 and 449998 among them). -/
theorem computeMeasurementCount_exact (n : Nat) (h : n ≤ 10000000) :
    computeMeasurementCount (buildUncompressedBucketForMeasurementCount n) "time" =
      some n := by
  have hred : computeMeasurementCount (buildUncompressedBucketForMeasurementCount n) "time" =
      intervalSearch (tsObjSize n) none kTimestampObjSizeTable := by
    show intervalSearch (columnObjSize (timeColumnOfCount n)) none kTimestampObjSizeTable = _
    rw [columnObjSize_timeColumn]
  rw [hred]
  rcases Nat.eq_zero_or_pos n with h0 | h0
  · subst h0
    exact search_at_zero
  · by_cases b1 : n ≤ 10
    · exact search_bracket1 n h0 b1
    · by_cases b2 : n ≤ 100
      · exact search_bracket2 n (by omega) b2
      · by_cases b3 : n ≤ 1000
        · exact search_bracket3 n (by omega) b3
        · by_cases b4 : n ≤ 10000
          · exact search_bracket4 n (by omega) b4
          · by_cases b5 : n ≤ 100000
            · exact search_bracket5 n (by omega) b5
            · by_cases b6 : n ≤ 1000000
              · exact search_bracket6 n (by omega) b6
              · exact search_bracket7 n (by omega) (by omega)

/-- Witness for `computeMeasurementCount_exact` at the concrete count 3. -/
theorem computeMeasurementCount_exact_witness :
    (3 : Nat) ≤ 10000000 ∧
      computeMeasurementCount (buildUncompressedBucketForMeasurementCount 3) "time" =
        some 3 :=
  ⟨by norm_num, computeMeasurementCount_exact 3 (by norm_num)⟩

/-- Witness instantiating the meta-erasure policy theorem at the include
spec of the basic fixture. -/
theorem eraseMeta_policy_witness :
    includeAllSpec.metaField = some "myMeta" ∧
    ("myMeta" ∈ (eraseMetaFromFieldSetAndDetermineIncludeMeta Behavior.kInclude
        includeAllSpec).2.fieldSet ↔
      ("myMeta" ∈ includeAllSpec.fieldSet ∧ "myMeta" ≠ "myMeta")) :=
  ⟨rfl, (eraseMeta_policy Behavior.kInclude includeAllSpec).2.1 "myMeta" rfl "myMeta"⟩

end BucketUnpacking
